import Mathlib

/-!
Verification of the renderscholar core (`renderscholar/scholar.py` plus the
`renderscholar.py` pipeline) against its natural-language specification.

Modelling conventions, shared by all definitions below:

* Python dict-shaped paper records become the `Record` structure.  A dict may
  in principle carry a `score` key, so the structure has an optional `score`
  field; the collector never sets it.
* Python floats become `ℚ`.  The transcendental library primitives that the
  scoring code calls (`difflib.SequenceMatcher.ratio`, `math.log1p`, the
  sentence-embedding cosine similarity, `exp`) are not part of this
  repository; they enter the embedding as explicit function parameters
  (`ratioFn`, `log1p`, `cosSim`, `expDecay`), so every claim is quantified
  over them.  Where a claim needs the one mathematical fact
  `math.log1p 0 = 0`, the theorem takes it as a hypothesis and the witness
  discharges it with a concrete instance.
* `html.unescape` and the `.strip()` applied while extracting text from the
  page markup are functions `String → String` applied upstream of everything
  the claims talk about; the embedding quantifies over the already-extracted
  strings, which covers every possible output of those functions.
* Python `str.lower`, `str.strip` become `String.toLower`, `String.trim`
  (ASCII approximations of the Unicode-aware Python versions), and the
  regex `\b(19|20)\d{2}\b` word/digit classes are modelled over ASCII.
* `list.sort(key=…, reverse=True)` is a stable descending sort; it is
  modelled by the stable insertion sort `sortByDesc`.
-/

namespace RenderScholar

/-- One paper record, as built by `search_scholar` in
`renderscholar/scholar.py` (the dict appended at lines 108-117).  The
`score` field models the possibility of a `score` key in the dict; the
collector never sets one. -/
structure Record where
  title : String
  link : Option String
  scholar_link : Option String
  pdf_link : Option String
  snippet : String
  authors_year : String
  citations : Option Int
  year : Option Int
  score : Option ℚ := none
deriving Repr, DecidableEq

/-- The heading anchor `h3 a` of one result entry.  In the source an anchor
without an `href` attribute would raise `KeyError` at
`title_tag["href"]` (scholar.py line 80) before any record is produced, so
the model gives every present anchor an `href`. -/
structure TitleTag where
  text : String
  href : String
deriving Repr, DecidableEq

/-- The extracted pieces of one result entry of the page markup, i.e. the
outcome of the `select_one` / `find` calls in scholar.py lines 77-98.
`citeText` is the text of the footer link whose text contains
"Cited by" (`none` when the footer or the link is absent). -/
structure Entry where
  titleTag : Option TitleTag
  snippet : Option String
  authorsYear : Option String
  pdfHref : Option String
  citeText : Option String
deriving Repr, DecidableEq

/-! ### Python `int(...)` on the citation text

Strings manipulated by the citation parsing are modelled as character
lists, with `str.replace`, `str.strip` and `int` given directly as
character-list functions with Python's semantics. -/

/-- ASCII digit test, the `\d` of the year regex and the digits accepted by
`int(...)` (Python also accepts non-ASCII Unicode digits and underscore
grouping; those are outside the model). -/
def isDigitChar (c : Char) : Bool := 48 ≤ c.toNat && c.toNat ≤ 57

/-- Numeric value of an ASCII digit character. -/
def digitValOf (c : Char) : Nat := c.toNat - 48

/-- The whitespace stripped by Python `str.strip()` and `int(...)` (ASCII
part; Python also strips further Unicode whitespace). -/
def isSpaceChar (c : Char) : Bool :=
  c = ' ' || c = '\t' || c = '\n' || c = '\r' || c = '\x0b' || c = '\x0c'

/-- Python `str.strip()`: drop leading and trailing whitespace. -/
def stripChars (cs : List Char) : List Char :=
  ((cs.dropWhile isSpaceChar).reverse.dropWhile isSpaceChar).reverse

/-- Python `s.replace("Cited by", "")`: remove every occurrence of
`"Cited by"`, scanning left to right. -/
def replaceCitedBy : List Char → List Char
  | 'C' :: 'i' :: 't' :: 'e' :: 'd' :: ' ' :: 'b' :: 'y' :: rest => replaceCitedBy rest
  | c :: cs => c :: replaceCitedBy cs
  | [] => []

/-- Accumulate the value of a digit string; `none` on a non-digit. -/
def digitsValCore : List Char → Nat → Option Nat
  | [], acc => some acc
  | c :: cs, acc =>
      if isDigitChar c then digitsValCore cs (acc * 10 + digitValOf c) else none

/-- Value of a non-empty all-digit character list, else `none`. -/
def digitsVal : List Char → Option Nat
  | [] => none
  | c :: cs => digitsValCore (c :: cs) 0

/-- Core of Python `int(str)` after whitespace stripping: an optional sign
followed by a non-empty digit string; anything else raises `ValueError`,
modelled as `none`. -/
def pyIntCore (cs : List Char) : Option Int :=
  match cs with
  | [] => none
  | c :: rest =>
      if c = '-' then (digitsVal rest).map (fun n => -(n : Int))
      else if c = '+' then (digitsVal rest).map (fun n => (n : Int))
      else (digitsVal (c :: rest)).map (fun n => (n : Int))

/-- Python `int(s)`, which strips surrounding whitespace itself (so the
explicit `.strip()` the source applies first is absorbed here). -/
def pythonIntChars (cs : List Char) : Option Int := pyIntCore (stripChars cs)

/-! ### The year regex `\b(19|20)\d{2}\b` (scholar.py line 104) -/

/-- Python regex word character `\w`, ASCII approximation. -/
def isWordChar (c : Char) : Bool := c.isAlphanum || c == '_'

/-- The word-boundary `\b` to the left of a match, given the preceding
character (`none` at the start of the string). -/
def nonWordBefore : Option Char → Bool
  | none => true
  | some c => !(isWordChar c)

/-- The word-boundary `\b` to the right of a match, given the rest of the
string. -/
def nonWordAfter : List Char → Bool
  | [] => true
  | c :: _ => !(isWordChar c)

/-- The alternation `(19|20)` opening the year pattern. -/
def yearStart (c1 c2 : Char) : Bool :=
  (c1 == '1' && c2 == '9') || (c1 == '2' && c2 == '0')

/-- Left-to-right scan for the first match of `\b(19|20)\d{2}\b`, the
semantics of `re.search` on that pattern. -/
def scanYear (prev : Option Char) : List Char → Option Nat
  | c1 :: c2 :: c3 :: c4 :: rest =>
      if nonWordBefore prev && yearStart c1 c2 && isDigitChar c3 && isDigitChar c4
          && nonWordAfter rest then
        some (1000 * digitValOf c1 + 100 * digitValOf c2 + 10 * digitValOf c3 + digitValOf c4)
      else
        scanYear (some c1) (c2 :: c3 :: c4 :: rest)
  | _ => none

/-- `re.search(r"\b(19|20)\d{2}\b", authors_year_text)` followed by
`int(match.group(0))` (scholar.py lines 103-106). -/
def extractYear (s : String) : Option Int := (scanYear none s.toList).map (fun n => (n : Int))

/-! ### Parsing one result entry (scholar.py lines 77-117) -/

/-- Parse one result entry into a `Record`, the loop body of
`search_scholar` at scholar.py lines 77-117. -/
def parseEntry (e : Entry) : Record :=
  { title := match e.titleTag with
      | some t => t.text
      | none => "No title"
    link := e.titleTag.map (fun t => t.href)
    scholar_link := match e.titleTag with
      | some t => some (if t.href.startsWith "/scholar" then
          "https://scholar.google.com" ++ t.href else t.href)
      | none => none
    pdf_link := e.pdfHref
    snippet := e.snippet.getD ""
    authors_year := e.authorsYear.getD ""
    citations := match e.citeText with
      | some s => pythonIntChars (replaceCitedBy s.toList)
      | none => none
    year := extractYear (e.authorsYear.getD "")
    score := none }

/-! ### The paginated collector (scholar.py lines 22-128) -/

/-- The fixed page size `per_page = 10` (scholar.py line 31). -/
def per_page : Nat := 10

/-- The page count `pages = (pool_size + per_page - 1) // per_page`
(scholar.py line 32); one `page.goto` request is issued per page. -/
def searchPages (pool_size : Nat) : Nat := (pool_size + per_page - 1) / per_page

/-- The sort parameter of the page URL: `"0"` for relevance, `"1"`
otherwise (scholar.py line 33). -/
def sortParam (sort_by : String) : String := if sort_by = "relevance" then "0" else "1"

/-- The record output of `search_scholar` (scholar.py lines 22-128).  The
page contents are an oracle `fetch`, mapping the sort parameter and the
page index to the entries found by the selector on that page; the loop
appends one record per entry, page by page, with no truncation. -/
def search_scholar (fetch : String → Nat → List Entry) (sort_by : String)
    (pool_size : Nat) : List Record :=
  ((List.range (searchPages pool_size)).map
    (fun i => (fetch (sortParam sort_by) i).map parseEntry)).flatten

/-! ### The per-page challenge protocol (scholar.py lines 51-75) -/

/-- The observable steps of the per-page protocol of `search_scholar`
(identical for every page of the loop at scholar.py lines 51-75).
`awaitResults (some t)` is `page.wait_for_selector(..., timeout=t)`;
`awaitResults none` is the `timeout=0` call, which Playwright treats as no
timeout at all. -/
inductive PageAction where
  | navigate
  | awaitResults (timeout_ms : Option Nat)
  | writeChallengeMarker
  | pollUntilMarkerRemoved
  | parseEntries
deriving Repr, DecidableEq

/-- The action sequence of one page of `search_scholar`, as a function of
the `wait_for_user` flag and of whether the bounded wait for the results
selector timed out (scholar.py lines 56-75).  The marker actions model
writing `captcha_flag.txt` and polling for its removal. -/
def pageActions (wait_for_user timed_out : Bool) : List PageAction :=
  [PageAction.navigate, PageAction.awaitResults (some 15000)] ++
  (if timed_out then
    (if wait_for_user then
      [PageAction.writeChallengeMarker, PageAction.pollUntilMarkerRemoved]
     else []) ++ [PageAction.awaitResults none]
   else []) ++
  [PageAction.parseEntries]

/-! ### Stable descending sort, the model of `list.sort(key=…, reverse=True)` -/

/-- Insert `a` into `l`, placing it before the first element whose key is
not larger; on equal keys the inserted (originally earlier) element comes
first, which is exactly the stability of Python `list.sort`. -/
def insertDescStable {α : Type} (key : α → ℚ) (a : α) : List α → List α
  | [] => [a]
  | b :: l => if key a < key b then b :: insertDescStable key a l else a :: b :: l

/-- Stable descending insertion sort: the denotation of
`scored.sort(key=lambda x: x[0], reverse=True)`. -/
def sortByDesc {α : Type} (key : α → ℚ) : List α → List α
  | [] => []
  | a :: l => insertDescStable key a (sortByDesc key l)

/-! ### Modes and lexical scoring (scholar.py lines 134-182) -/

/-- One weight triple of the `MODES` table. -/
structure Weights where
  w_sim : ℚ
  w_cites : ℚ
  w_recency : ℚ
deriving Repr, DecidableEq

/-- The `balanced` weights (scholar.py line 135). -/
def balancedWeights : Weights := ⟨1/2, 3/10, 1/5⟩

/-- The `MODES` table (scholar.py lines 134-142); the `semantic` entry maps
to Python `None`, modelled as `none`. -/
def MODES : List (String × Option Weights) :=
  [("balanced", some balancedWeights),
   ("recent", some ⟨3/10, 2/10, 5/10⟩),
   ("famous", some ⟨2/10, 7/10, 1/10⟩),
   ("influential", some ⟨4/10, 4/10, 2/10⟩),
   ("hot", some ⟨3/10, 4/10, 3/10⟩),
   ("semantic", none),
   ("single", some ⟨1, 0, 0⟩)]

/-- `MODES.get(mode, MODES["balanced"])` (scholar.py line 153), followed by
the field reads of line 154.  The inner `getD` is unreachable in the code:
the only `none`-valued key is `"semantic"`, which is dispatched before the
lookup (line 150). -/
def modeWeights (mode : String) : Weights :=
  ((MODES.lookup mode).getD (some balancedWeights)).getD balancedWeights

/-- The similarity term of the lexical score (scholar.py lines 159-163):
`SequenceMatcher` ratio of the lowercased query against the lowercased
title, falling back to the snippet when the title is falsy, and `0.0` when
both are falsy. -/
def similarity (ratioFn : String → String → ℚ) (query : String) (p : Record) : ℚ :=
  if p.title ≠ "" then ratioFn query.toLower p.title.toLower
  else if p.snippet ≠ "" then ratioFn query.toLower p.snippet.toLower
  else 0

/-- The citation factor (scholar.py line 166):
`math.log1p(paper["citations"]) if paper.get("citations") else 0.0`; both a
missing and a zero (falsy) count give `0.0`. -/
def citationFactor (log1p : Int → ℚ) (p : Record) : ℚ :=
  match p.citations with
  | some c => if c = 0 then 0 else log1p c
  | none => 0

/-- The recency boost (scholar.py lines 169-171): `0.0` unless the year is
truthy, else `max(0, (year - 2000) / 25.0)`. -/
def recencyBoost (p : Record) : ℚ :=
  match p.year with
  | some y => if y = 0 then 0 else max 0 (((y : ℚ) - 2000) / 25)
  | none => 0

/-- The weighted lexical score (scholar.py line 174). -/
def lexScore (ratioFn : String → String → ℚ) (log1p : Int → ℚ) (w : Weights)
    (query : String) (p : Record) : ℚ :=
  w.w_sim * similarity ratioFn query p + w.w_cites * (citationFactor log1p p / 10)
    + w.w_recency * recencyBoost p

/-! ### Semantic ranking (scholar.py lines 185-218) -/

/-- The skip test of scholar.py lines 198-200: the record is kept when
`(title + " " + snippet).strip()` is non-empty. -/
def semanticKeep (p : Record) : Bool :=
  !(stripChars ((p.title ++ " " ++ p.snippet).toList)).isEmpty

/-- The semantic score (scholar.py lines 202-214): `0.6` times the cosine
similarity of the query embedding and the embedding of
`title + " " + snippet`, plus `0.25` times the scaled
`log1p(citations or 0)`, plus `0.15` times the recency boost. -/
def semanticScore (cosSim : String → String → ℚ) (log1p : Int → ℚ)
    (query : String) (p : Record) : ℚ :=
  (6/10) * cosSim query (p.title ++ " " ++ p.snippet)
    + (25/100) * (log1p (p.citations.getD 0) / 10)
    + (15/100) * recencyBoost p

/-- `semantic_rank_papers` (scholar.py lines 185-218): skip the records
with blank concatenated text, score the rest, stable-sort descending,
truncate. -/
def semantic_rank_papers (cosSim : String → String → ℚ) (log1p : Int → ℚ)
    (query : String) (papers : List Record) (max_results : Nat) : List Record :=
  (sortByDesc (semanticScore cosSim log1p query)
    (papers.filter (fun p => semanticKeep p))).take max_results

/-- `rank_papers` (scholar.py lines 145-182): dispatch `semantic`, look the
weights up with the `balanced` fallback, score and stable-sort descending;
`single` returns the head of the sorted list alone, every other mode
truncates to `max_results`. -/
def rank_papers (ratioFn : String → String → ℚ) (log1p : Int → ℚ)
    (cosSim : String → String → ℚ) (query : String) (papers : List Record)
    (max_results : Nat) (mode : String) : List Record :=
  if mode = "semantic" then semantic_rank_papers cosSim log1p query papers max_results
  else if mode = "single" then
    match sortByDesc (lexScore ratioFn log1p (modeWeights mode) query) papers with
    | [] => []
    | r :: _ => [r]
  else
    (sortByDesc (lexScore ratioFn log1p (modeWeights mode) query) papers).take max_results

/-! ### Spec-side definitions for the scoring formula (spec §4.2)

These restate the spec's words, to be compared with the code-side
definitions above.  The spec leaves the similarity of a record whose title
and snippet are both absent/empty unspecified; `0` is used, matching the
claim's silence. -/

/-- Spec §4.2: similarity is the ratio of the lowercased query against the
lowercased title, falling back to the snippet when the title is
absent/empty. -/
def specSimilarity (ratioFn : String → String → ℚ) (query : String) (p : Record) : ℚ :=
  if p.title = "" then
    (if p.snippet = "" then 0 else ratioFn query.toLower p.snippet.toLower)
  else ratioFn query.toLower p.title.toLower

/-- Spec §4.2: citation term `log(1 + citation_count)` scaled by the
constant divisor 10; unknown count contributes `0`. -/
def specCitationTerm (log1p : Int → ℚ) (p : Record) : ℚ :=
  match p.citations with
  | some c => log1p c / 10
  | none => 0

/-- Spec §4.2: recency term `clamp((year - 2000) / 25, lower bound 0)`;
unknown year contributes `0`. -/
def specRecencyTerm (p : Record) : ℚ :=
  match p.year with
  | some y => max 0 (((y : ℚ) - 2000) / 25)
  | none => 0

/-- Spec §4.2: the lexical-weighted score as the weighted sum of the three
spec terms. -/
def specLexScore (ratioFn : String → String → ℚ) (log1p : Int → ℚ) (w : Weights)
    (query : String) (p : Record) : ℚ :=
  w.w_sim * specSimilarity ratioFn query p + w.w_cites * specCitationTerm log1p p
    + w.w_recency * specRecencyTerm p

/-! ### Posterior-regression strategy, modelled from the spec -/

/-- Dot product of two feature/weight triples. -/
def dot3 (a b : ℚ × ℚ × ℚ) : ℚ := a.1 * b.1 + a.2.1 * b.2.1 + a.2.2 * b.2.2

/-- Modelled from the spec: the per-record feature triple of the
posterior-regression strategy of §4.2 — lexical similarity,
citations-per-year-of-age, and an exponential recency decay with a 5-year
half-scale.  The implementation (`bayesian_rank_papers`, imported by
`renderscholar.py` from `renderscholar.scholar`) is absent from the
provided sources.  The exponential is the abstract parameter `expDecay`
applied to age divided by the 5-year scale; a record with unknown
citations or year contributes `0` for the affected feature. -/
def bayesFeatures (ratioFn : String → String → ℚ) (expDecay : ℚ → ℚ)
    (currentYear : Int) (query : String) (p : Record) : ℚ × ℚ × ℚ :=
  (similarity ratioFn query p,
   (match p.citations, p.year with
    | some c, some y => (c : ℚ) / max 1 ((currentYear : ℚ) - (y : ℚ))
    | _, _ => 0),
   (match p.year with
    | some y => expDecay (((currentYear : ℚ) - (y : ℚ)) / 5)
    | none => 0))

/-- Modelled from the spec: `bayesian_rank_papers` of §4.2, absent from the
provided sources.  It builds the feature matrix, fits a linear regression
with a weakly informative prior against synthetic observations that are
uniformly `1.0` (the fit — a sampling procedure in the source — is the
abstract parameter `fit`, returning the posterior mean weight triple), and
scores every record by the dot product of its features with the posterior
mean, ranking descending and truncating. -/
def bayesian_rank_papers (ratioFn : String → String → ℚ) (expDecay : ℚ → ℚ)
    (fit : List (ℚ × ℚ × ℚ) → List ℚ → ℚ × ℚ × ℚ) (currentYear : Int)
    (query : String) (papers : List Record) (max_results : Nat) : List Record :=
  (sortByDesc
    (fun p => dot3 (bayesFeatures ratioFn expDecay currentYear query p)
      (fit (papers.map (bayesFeatures ratioFn expDecay currentYear query))
        (papers.map (fun _ => (1 : ℚ)))))
    papers).take max_results

/-! ### Lemmas about the stable descending sort -/

theorem perm_insertDescStable {α : Type} (key : α → ℚ) (a : α) (l : List α) :
    (insertDescStable key a l).Perm (a :: l) := by
  induction l with
  | nil => simp [insertDescStable]
  | cons b t ih =>
    simp only [insertDescStable]
    by_cases h : key a < key b
    · simp only [if_pos h]
      exact (ih.cons b).trans (List.Perm.swap a b t)
    · simp [if_neg h]

theorem perm_sortByDesc {α : Type} (key : α → ℚ) (l : List α) :
    (sortByDesc key l).Perm l := by
  induction l with
  | nil => simp [sortByDesc]
  | cons a t ih =>
    simp only [sortByDesc]
    exact (perm_insertDescStable key a (sortByDesc key t)).trans (ih.cons a)

theorem mem_sortByDesc {α : Type} (key : α → ℚ) (l : List α) (x : α) :
    x ∈ sortByDesc key l ↔ x ∈ l :=
  (perm_sortByDesc key l).mem_iff

theorem sorted_insertDescStable {α : Type} (key : α → ℚ) (a : α) (l : List α)
    (h : l.Pairwise (fun x y => key y ≤ key x)) :
    (insertDescStable key a l).Pairwise (fun x y => key y ≤ key x) := by
  induction l with
  | nil => simp [insertDescStable]
  | cons b t ih =>
    rcases List.pairwise_cons.mp h with ⟨hb, ht⟩
    simp only [insertDescStable]
    by_cases hab : key a < key b
    · simp only [if_pos hab]
      refine List.pairwise_cons.mpr ⟨?_, ih ht⟩
      intro x hx
      rcases List.mem_cons.mp ((perm_insertDescStable key a t).subset hx) with rfl | hxt
      · exact le_of_lt hab
      · exact hb x hxt
    · simp only [if_neg hab]
      have hba : key b ≤ key a := le_of_not_lt hab
      refine List.pairwise_cons.mpr ⟨?_, h⟩
      intro x hx
      rcases List.mem_cons.mp hx with rfl | hxt
      · exact hba
      · exact le_trans (hb x hxt) hba

theorem sorted_sortByDesc {α : Type} (key : α → ℚ) (l : List α) :
    (sortByDesc key l).Pairwise (fun x y => key y ≤ key x) := by
  induction l with
  | nil => simp [sortByDesc]
  | cons a t ih => exact sorted_insertDescStable key a (sortByDesc key t) ih

theorem filter_insertDescStable_eq {α : Type} (key : α → ℚ) (a : α) (l : List α)
    (q : ℚ) (ha : key a = q) :
    (insertDescStable key a l).filter (fun x => decide (key x = q))
      = a :: l.filter (fun x => decide (key x = q)) := by
  induction l with
  | nil => simp [insertDescStable, List.filter, ha]
  | cons b t ih =>
    simp only [insertDescStable]
    by_cases hab : key a < key b
    · have hbq : ¬ (key b = q) := by
        rw [← ha]; exact ne_of_gt hab
      rw [if_pos hab]
      simp [List.filter_cons, hbq, ih]
    · rw [if_neg hab]
      simp [List.filter_cons, ha]

theorem filter_insertDescStable_ne {α : Type} (key : α → ℚ) (a : α) (l : List α)
    (q : ℚ) (ha : ¬ (key a = q)) :
    (insertDescStable key a l).filter (fun x => decide (key x = q))
      = l.filter (fun x => decide (key x = q)) := by
  induction l with
  | nil => simp [insertDescStable, List.filter, ha]
  | cons b t ih =>
    simp only [insertDescStable]
    by_cases hab : key a < key b
    · rw [if_pos hab]
      simp [List.filter_cons, ih]
    · rw [if_neg hab]
      simp [List.filter_cons, ha]

theorem filter_sortByDesc {α : Type} (key : α → ℚ) (l : List α) (q : ℚ) :
    (sortByDesc key l).filter (fun x => decide (key x = q))
      = l.filter (fun x => decide (key x = q)) := by
  induction l with
  | nil => simp [sortByDesc]
  | cons a t ih =>
    simp only [sortByDesc]
    by_cases ha : key a = q
    · rw [filter_insertDescStable_eq key a (sortByDesc key t) q ha, ih,
        List.filter_cons, if_pos (by simpa using ha)]
    · rw [filter_insertDescStable_ne key a (sortByDesc key t) q ha, ih,
        List.filter_cons, if_neg (by simpa using ha)]

theorem sortByDesc_congr {α : Type} (key1 key2 : α → ℚ) (l : List α)
    (h : ∀ x, key1 x = key2 x) : sortByDesc key1 l = sortByDesc key2 l := by
  have : key1 = key2 := funext h
  rw [this]

/-- The filtered content of a `take`-prefix is an initial segment of the
filtered content of the whole list. -/
theorem filter_take_append {α : Type} (p : α → Bool) :
    ∀ (n : Nat) (l : List α), ∃ t, l.filter p = (l.take n).filter p ++ t := by
  intro n l
  induction l generalizing n with
  | nil => exact ⟨[], by simp⟩
  | cons a l ih =>
    cases n with
    | zero => exact ⟨(a :: l).filter p, by simp⟩
    | succ m =>
      obtain ⟨t, ht⟩ := ih m
      refine ⟨t, ?_⟩
      by_cases hp : p a
      · simp [List.filter_cons, hp, ht]
      · simp [List.filter_cons, hp, ht]

theorem find?_eq_head?_filter {α : Type} (p : α → Bool) (l : List α) :
    l.find? p = (l.filter p).head? := by
  induction l with
  | nil => rfl
  | cons a t ih =>
    cases hp : p a with
    | true =>
      rw [List.find?_cons_of_pos t (by simp [hp]), List.filter_cons, if_pos (by simp [hp])]
      rfl
    | false =>
      rw [List.find?_cons_of_neg t (by simp [hp]), List.filter_cons, if_neg (by simp [hp]), ih]

theorem find?_congr_mem {α : Type} (p q : α → Bool) (l : List α)
    (h : ∀ x ∈ l, p x = q x) : l.find? p = l.find? q := by
  induction l with
  | nil => rfl
  | cons a t ih =>
    have ha := h a (List.mem_cons_self a t)
    cases hp : p a with
    | true =>
      have hq : q a = true := ha ▸ hp
      simp [List.find?_cons, hp, hq]
    | false =>
      have hq : q a = false := ha ▸ hp
      simp only [List.find?_cons, hp, hq]
      exact ih (fun x hx => h x (List.mem_cons_of_mem a hx))

/-- The head of the stable descending sort is the first list element
attaining the maximal key. -/
theorem head?_sortByDesc {α : Type} (key : α → ℚ) (l : List α) :
    (sortByDesc key l).head? = l.find? (fun r => l.all (fun s => decide (key s ≤ key r))) := by
  cases hs : sortByDesc key l with
  | nil =>
    have : l = [] := by
      have := (perm_sortByDesc key l).length_eq
      rw [hs] at this
      exact List.length_eq_zero.mp this.symm
    subst this
    rfl
  | cons r t =>
    have hmem : r ∈ l := by
      rw [← mem_sortByDesc key l r, hs]
      exact List.mem_cons_self r t
    have hmax : ∀ x ∈ l, key x ≤ key r := by
      intro x hx
      rw [← mem_sortByDesc key l x, hs] at hx
      rcases List.mem_cons.mp hx with rfl | hxt
      · exact le_refl _
      · have hp := sorted_sortByDesc key l
        rw [hs] at hp
        exact (List.pairwise_cons.mp hp).1 x hxt
    have hfilter : l.filter (fun x => decide (key x = key r))
        = r :: t.filter (fun x => decide (key x = key r)) := by
      rw [← filter_sortByDesc key l (key r), hs, List.filter_cons, if_pos (by simp)]
    rw [find?_congr_mem (fun r' => l.all (fun s => decide (key s ≤ key r')))
        (fun x => decide (key x = key r)) l ?_]
    · rw [find?_eq_head?_filter, hfilter]
      rfl
    · intro x hx
      show l.all (fun s => decide (key s ≤ key x)) = decide (key x = key r)
      cases hb : l.all (fun s => decide (key s ≤ key x)) with
      | false =>
        have hne : ¬ (key x = key r) := by
          intro hxr
          have hall : ∀ s ∈ l, key s ≤ key x := fun s hs' => hxr ▸ hmax s hs'
          have htrue : l.all (fun s => decide (key s ≤ key x)) = true := by
            rw [List.all_eq_true]
            intro s hs'
            exact decide_eq_true (hall s hs')
          simp [htrue] at hb
        simp [hne]
      | true =>
        have hall : ∀ s ∈ l, key s ≤ key x := by
          intro s hs'
          have hd := (List.all_eq_true.mp hb) s hs'
          exact of_decide_eq_true hd
        have hxr : key x = key r := le_antisymm (hmax x hx) (hall r hmem)
        simp [hxr]

/-! ### Helper lemmas for the collector claims -/

theorem searchPages_eq_ceil (pool_size : Nat) :
    searchPages pool_size = ⌈(pool_size : ℚ) / 10⌉₊ := by
  have h10 : (0 : ℚ) < 10 := by norm_num
  apply le_antisymm
  · have hle : (pool_size : ℚ) / 10 ≤ (⌈(pool_size : ℚ) / 10⌉₊ : ℚ) := Nat.le_ceil _
    have h1 : (pool_size : ℚ) ≤ (⌈(pool_size : ℚ) / 10⌉₊ : ℚ) * 10 := by
      rw [div_le_iff₀ h10] at hle
      exact hle
    have h2 : pool_size ≤ ⌈(pool_size : ℚ) / 10⌉₊ * 10 := by exact_mod_cast h1
    unfold searchPages per_page
    omega
  · rw [Nat.ceil_le, div_le_iff₀ h10]
    have h3 : pool_size ≤ searchPages pool_size * 10 := by
      unfold searchPages per_page
      omega
    exact_mod_cast h3

theorem scanYear_range (prev : Option Char) (cs : List Char) (n : Nat)
    (h : scanYear prev cs = some n) : 1900 ≤ n ∧ n ≤ 2099 := by
  induction prev, cs using scanYear.induct with
  | case1 prev c1 c2 c3 c4 rest hcond =>
    rw [scanYear, if_pos hcond] at h
    injection h with h
    subst h
    simp only [Bool.and_eq_true] at hcond
    obtain ⟨⟨⟨⟨hb, hy⟩, h3⟩, h4⟩, ha⟩ := hcond
    simp only [isDigitChar, Bool.and_eq_true, decide_eq_true_eq] at h3 h4
    have d3 : digitValOf c3 ≤ 9 := by unfold digitValOf; omega
    have d4 : digitValOf c4 ≤ 9 := by unfold digitValOf; omega
    simp only [yearStart, Bool.or_eq_true, Bool.and_eq_true, beq_iff_eq] at hy
    rcases hy with ⟨rfl, rfl⟩ | ⟨rfl, rfl⟩
    · have e1 : digitValOf '1' = 1 := by decide
      have e2 : digitValOf '9' = 9 := by decide
      rw [e1, e2]
      omega
    · have e1 : digitValOf '2' = 2 := by decide
      have e2 : digitValOf '0' = 0 := by decide
      rw [e1, e2]
      omega
  | case2 prev c1 c2 c3 c4 rest hcond ih =>
    rw [scanYear, if_neg hcond] at h
    exact ih h
  | case3 t prev hne =>
    rcases t with _ | ⟨a, _ | ⟨b, _ | ⟨c, _ | ⟨d, rest⟩⟩⟩⟩
    · simp [scanYear] at h
    · simp [scanYear] at h
    · simp [scanYear] at h
    · simp [scanYear] at h
    · exact absurd rfl (hne a b c d rest)

theorem extractYear_range (s : String) (y : Int) (h : extractYear s = some y) :
    1900 ≤ y ∧ y ≤ 2099 := by
  unfold extractYear at h
  cases hn : scanYear none s.toList with
  | none =>
    rw [hn] at h
    exact Option.noConfusion h
  | some n =>
    rw [hn] at h
    injection h with h
    have h' : (n : Int) = y := h
    obtain ⟨h1, h2⟩ := scanYear_range none s.toList n hn
    constructor
    · rw [← h']; exact_mod_cast h1
    · rw [← h']; exact_mod_cast h2

theorem pyIntCore_nonneg_or_minus (cs : List Char) (c : Int)
    (h : pyIntCore cs = some c) : 0 ≤ c ∨ cs.head? = some '-' := by
  match cs with
  | [] => exact absurd h (by simp [pyIntCore])
  | a :: rest =>
    by_cases ha : a = '-'
    · right
      rw [ha]
      rfl
    · left
      simp only [pyIntCore] at h
      rw [if_neg ha] at h
      by_cases hp : a = '+'
      · rw [if_pos hp] at h
        cases hd : digitsVal rest with
        | none =>
          rw [hd] at h
          exact Option.noConfusion h
        | some n =>
          rw [hd] at h
          injection h with h
          have h' : (n : Int) = c := h
          rw [← h']
          exact Int.natCast_nonneg n
      · rw [if_neg hp] at h
        cases hd : digitsVal (a :: rest) with
        | none =>
          rw [hd] at h
          exact Option.noConfusion h
        | some n =>
          rw [hd] at h
          injection h with h
          have h' : (n : Int) = c := h
          rw [← h']
          exact Int.natCast_nonneg n

/-! ### Concrete data for witnesses and counterexamples -/

/-- A result entry with every optional part absent. -/
def blankEntry : Entry := ⟨none, none, none, none, none⟩

/-- A well-formed result entry: no heading anchor, an authors/year line
carrying a year, and a well-formed citation footer. -/
def c8Entry : Entry := ⟨none, none, some "J Smith - 2015", none, some "Cited by 42"⟩

/-- A result entry whose citation footer text carries a minus-signed
number, which `int(...)` parses to a negative count. -/
def negCiteEntry : Entry := ⟨none, none, none, none, some "Cited by -5"⟩

/-! ### C1 -/

/-- C1 (amended): for every query, pool size `P` and sort order, the
collector issues exactly `ceil(P / 10)` page requests, and its output is
exactly the per-page parsed entries concatenated in page-then-entry order
(the parsed records of page `i` of the page range, in entry order).  The
original claim's "returns at most P records" is refuted by
`c1_counterexample`: the loop performs no truncation. -/
theorem c1_page_requests_and_order (fetch : String → Nat → List Entry)
    (sort_by : String) (pool_size : Nat) :
    searchPages pool_size = ⌈(pool_size : ℚ) / 10⌉₊ ∧
    search_scholar fetch sort_by pool_size =
      ((List.range (searchPages pool_size)).map
        (fun i => (fetch (sortParam sort_by) i).map parseEntry)).flatten :=
  ⟨searchPages_eq_ceil pool_size, rfl⟩

/-- C1 counterexample: with pool size 5 the collector requests
`ceil(5/10) = 1` page, and when that page's markup holds 10 entries (the
normal page size of the results source) the collector returns 10 records —
more than the requested pool size, since nothing truncates the output. -/
theorem c1_counterexample :
    ¬ ((search_scholar (fun _ _ => List.replicate 10 blankEntry) "relevance" 5).length ≤ 5) := by
  decide

/-! ### C5 -/

/-- C5 counterexample: with `wait_for_user = False` (the parameter's
default), a page whose bounded wait times out produces no
challenge-marker write at all: the collector goes straight to the
unbounded re-await.  This refutes the claim that the marker-signal-and
block behaviour occurs on every timeout. -/
theorem c5_counterexample :
    PageAction.writeChallengeMarker ∉ pageActions false true := by
  decide

/-- C5 (amended): when the collector runs with `wait_for_user = True` (as
the pipeline callers invoke it), every page whose bounded results wait
times out proceeds exactly as the claim states: the durable challenge
marker is written, then the collector blocks polling until the marker is
removed, then re-awaits the results markup with no timeout, and only then
parses. -/
theorem c5_challenge_protocol (wait_for_user timed_out : Bool)
    (hw : wait_for_user = true) (ht : timed_out = true) :
    pageActions wait_for_user timed_out =
      [PageAction.navigate, PageAction.awaitResults (some 15000),
       PageAction.writeChallengeMarker, PageAction.pollUntilMarkerRemoved,
       PageAction.awaitResults none, PageAction.parseEntries] := by
  subst hw
  subst ht
  rfl

/-- C5 witness: the amended protocol at `wait_for_user = true` on a page
that timed out. -/
theorem c5_witness :
    pageActions true true =
      [PageAction.navigate, PageAction.awaitResults (some 15000),
       PageAction.writeChallengeMarker, PageAction.pollUntilMarkerRemoved,
       PageAction.awaitResults none, PageAction.parseEntries] :=
  c5_challenge_protocol true true rfl rfl

/-! ### C8 -/

/-- C8 (amended): every record the collector parses satisfies: the title
is the sentinel "No title" whenever the heading anchor is absent (and is
always a present string); the publication year, when known, lies in
1900–2099 (it is the first boundary-delimited `(19|20)dd` match of the
authors/year text); and the citation count, when known, is non-negative
unless the parsed footer text begins with a minus sign after removing
"Cited by" and stripping whitespace.  The original claim's "never a
negative number" is refuted by `c8_counterexample`. -/
theorem c8_record_invariants (e : Entry) :
    (e.titleTag = none → (parseEntry e).title = "No title") ∧
    (∀ y : Int, (parseEntry e).year = some y → 1900 ≤ y ∧ y ≤ 2099) ∧
    (∀ s : String, ∀ c : Int, e.citeText = some s → (parseEntry e).citations = some c →
      0 ≤ c ∨ (stripChars (replaceCitedBy s.toList)).head? = some '-') := by
  refine ⟨?_, ?_, ?_⟩
  · intro ht
    simp [parseEntry, ht]
  · intro y hy
    have hx : extractYear (e.authorsYear.getD "") = some y := by
      simpa [parseEntry] using hy
    exact extractYear_range _ y hx
  · intro s c hs hc
    simp only [parseEntry, hs] at hc
    rw [pythonIntChars] at hc
    exact pyIntCore_nonneg_or_minus _ c hc

/-- C8 witness: a concrete entry with no heading anchor, authors/year text
"J Smith - 2015" and citation text "Cited by 42" yields the sentinel
title, a year within 1900–2099, and a non-negative citation count. -/
theorem c8_witness :
    (parseEntry c8Entry).title = "No title" ∧
    (1900 ≤ (2015 : Int) ∧ (2015 : Int) ≤ 2099) ∧
    (0 ≤ (42 : Int) ∨ (stripChars (replaceCitedBy "Cited by 42".toList)).head? = some '-') :=
  ⟨(c8_record_invariants c8Entry).1 rfl,
   (c8_record_invariants c8Entry).2.1 2015 (by decide),
   (c8_record_invariants c8Entry).2.2 "Cited by 42" 42 rfl (by decide)⟩

/-- C8 counterexample: a footer link text "Cited by -5" (it does contain
the marker phrase "Cited by", so the source's `find` selects it) parses to
the negative citation count `-5`, refuting "never a negative number". -/
theorem c8_counterexample :
    (parseEntry negCiteEntry).citations = some (-5) ∧ (-5 : Int) < 0 := by
  refine ⟨by decide, by decide⟩

/-! ### Shared scoring equivalence lemmas -/

theorem similarity_eq_spec (ratioFn : String → String → ℚ) (query : String) (p : Record) :
    similarity ratioFn query p = specSimilarity ratioFn query p := by
  unfold similarity specSimilarity
  by_cases ht : p.title = ""
  · by_cases hs : p.snippet = ""
    · simp [ht, hs]
    · simp [ht, hs]
  · simp [ht]

theorem citationFactor_div_eq (log1p : Int → ℚ) (p : Record) (hlog : log1p 0 = 0) :
    citationFactor log1p p / 10 = specCitationTerm log1p p := by
  unfold citationFactor specCitationTerm
  cases p.citations with
  | none => norm_num
  | some c =>
    dsimp only
    by_cases hc : c = 0
    · rw [if_pos hc, hc, hlog]
    · rw [if_neg hc]

theorem recencyBoost_eq_spec (p : Record) : recencyBoost p = specRecencyTerm p := by
  unfold recencyBoost specRecencyTerm
  cases p.year with
  | none => rfl
  | some y =>
    dsimp only
    by_cases hy : y = 0
    · rw [if_pos hy, hy]
      have h80 : (((0 : Int) : ℚ) - 2000) / 25 = -80 := by norm_num
      rw [h80, max_eq_left (by norm_num : (-80 : ℚ) ≤ 0)]
    · rw [if_neg hy]

theorem semanticScore_eq_spec (cosSim : String → String → ℚ) (log1p : Int → ℚ)
    (query : String) (r : Record) (hlog : log1p 0 = 0) :
    semanticScore cosSim log1p query r
      = (6/10) * cosSim query (r.title ++ " " ++ r.snippet)
        + (25/100) * specCitationTerm log1p r + (15/100) * specRecencyTerm r := by
  have hc : log1p (r.citations.getD 0) / 10 = specCitationTerm log1p r := by
    cases hcs : r.citations with
    | none => simp [specCitationTerm, hcs, hlog]
    | some c => simp [specCitationTerm, hcs]
  unfold semanticScore
  rw [recencyBoost_eq_spec, hc]

/-! ### Concrete records and primitives for witnesses -/

/-- A fully populated sample record. -/
def sampleRecord : Record :=
  { title := "Deep Learning", link := none, scholar_link := none, pdf_link := none,
    snippet := "a survey", authors_year := "Y LeCun - 2015", citations := some 500,
    year := some 2015, score := none }

/-- A record whose title and snippet are both empty. -/
def emptyTextRecord : Record :=
  { title := "", link := none, scholar_link := none, pdf_link := none,
    snippet := "", authors_year := "", citations := none, year := none, score := none }

/-- Constant-zero similarity primitive, a concrete stand-in for the
`SequenceMatcher` ratio in witnesses. -/
def simZero : String → String → ℚ := fun _ _ => 0

/-- Constant-zero logarithm primitive, a concrete stand-in for
`math.log1p` in witnesses (it satisfies `log1p 0 = 0`). -/
def logZero : Int → ℚ := fun _ => 0

/-- Constant-zero cosine primitive, a concrete stand-in for the embedding
cosine similarity in witnesses. -/
def cosZero : String → String → ℚ := fun _ _ => 0

/-! ### C2 -/

/-- C2: for every query and record, the lexical-weighted score of
`rank_papers` equals the spec formula
`w_sim * sim + w_cites * (log(1 + citations) / 10) + w_recency * max 0 ((year - 2000) / 25)`,
where `sim` is the similarity ratio of the lowercased query against the
lowercased title with snippet fallback, and an unknown citation count or
publication year contributes exactly `0` for its term.  The hypothesis is
the library fact `math.log1p 0 = 0`. -/
theorem c2_lexical_score (ratioFn : String → String → ℚ) (log1p : Int → ℚ)
    (w : Weights) (query : String) (p : Record) (hlog : log1p 0 = 0) :
    lexScore ratioFn log1p w query p = specLexScore ratioFn log1p w query p ∧
    (p.citations = none → specCitationTerm log1p p = 0) ∧
    (p.year = none → specRecencyTerm p = 0) := by
  refine ⟨?_, ?_, ?_⟩
  · unfold lexScore specLexScore
    rw [similarity_eq_spec, citationFactor_div_eq log1p p hlog, recencyBoost_eq_spec]
  · intro h
    simp [specCitationTerm, h]
  · intro h
    simp [specRecencyTerm, h]

/-- C2 witness: the score equality at a concrete record, query, weight
triple and `log1p` instance satisfying `log1p 0 = 0`. -/
theorem c2_witness :
    lexScore simZero logZero balancedWeights "deep learning" sampleRecord
      = specLexScore simZero logZero balancedWeights "deep learning" sampleRecord ∧
    (sampleRecord.citations = none → specCitationTerm logZero sampleRecord = 0) ∧
    (sampleRecord.year = none → specRecencyTerm sampleRecord = 0) :=
  c2_lexical_score simZero logZero balancedWeights "deep learning" sampleRecord rfl

/-! ### C3 -/

/-- C3 (amended): for every non-semantic mode other than `single`,
`rank_papers` returns the pool stable-sorted by descending score and
truncated to `top_k`: the output is sorted descending, has length
`min top_k |pool|`, consists of pool records, and for every score value
the output's records with that score form an initial segment of the
pool's records with that score in pool order (stability).  The original
claim included mode `single`, refuted by `c3_counterexample`: with
`top_k = 0` single mode still returns one record. -/
theorem c3_rank_descending_stable (ratioFn : String → String → ℚ) (log1p : Int → ℚ)
    (cosSim : String → String → ℚ) (query : String) (papers : List Record)
    (k : Nat) (mode : String) (hsem : mode ≠ "semantic") (hsingle : mode ≠ "single") :
    List.Pairwise (fun a b => lexScore ratioFn log1p (modeWeights mode) query b
        ≤ lexScore ratioFn log1p (modeWeights mode) query a)
      (rank_papers ratioFn log1p cosSim query papers k mode) ∧
    (rank_papers ratioFn log1p cosSim query papers k mode).length = min k papers.length ∧
    (∀ r : Record, r ∈ rank_papers ratioFn log1p cosSim query papers k mode → r ∈ papers) ∧
    (∀ q' : ℚ, ∃ t, papers.filter
        (fun r => decide (lexScore ratioFn log1p (modeWeights mode) query r = q'))
      = (rank_papers ratioFn log1p cosSim query papers k mode).filter
          (fun r => decide (lexScore ratioFn log1p (modeWeights mode) query r = q')) ++ t) := by
  have hr : rank_papers ratioFn log1p cosSim query papers k mode
      = (sortByDesc (lexScore ratioFn log1p (modeWeights mode) query) papers).take k := by
    unfold rank_papers
    rw [if_neg hsem, if_neg hsingle]
  rw [hr]
  refine ⟨?_, ?_, ?_, ?_⟩
  · exact List.Pairwise.sublist (List.take_sublist k _)
      (sorted_sortByDesc (lexScore ratioFn log1p (modeWeights mode) query) papers)
  · rw [List.length_take,
      (perm_sortByDesc (lexScore ratioFn log1p (modeWeights mode) query) papers).length_eq]
  · intro r hrm
    exact (mem_sortByDesc _ _ r).mp ((List.take_sublist k _).subset hrm)
  · intro q'
    obtain ⟨t, ht⟩ := filter_take_append
      (fun r => decide (lexScore ratioFn log1p (modeWeights mode) query r = q')) k
      (sortByDesc (lexScore ratioFn log1p (modeWeights mode) query) papers)
    refine ⟨t, ?_⟩
    rw [← filter_sortByDesc (lexScore ratioFn log1p (modeWeights mode) query) papers q']
    exact ht

/-- C3 witness: the amended statement at mode `balanced`, a one-record
pool and `top_k = 1`. -/
theorem c3_witness :
    List.Pairwise (fun a b => lexScore simZero logZero (modeWeights "balanced") "q" b
        ≤ lexScore simZero logZero (modeWeights "balanced") "q" a)
      (rank_papers simZero logZero cosZero "q" [sampleRecord] 1 "balanced") ∧
    (rank_papers simZero logZero cosZero "q" [sampleRecord] 1 "balanced").length
      = min 1 [sampleRecord].length ∧
    (∀ r : Record, r ∈ rank_papers simZero logZero cosZero "q" [sampleRecord] 1 "balanced"
      → r ∈ [sampleRecord]) ∧
    (∀ q' : ℚ, ∃ t, [sampleRecord].filter
        (fun r => decide (lexScore simZero logZero (modeWeights "balanced") "q" r = q'))
      = (rank_papers simZero logZero cosZero "q" [sampleRecord] 1 "balanced").filter
          (fun r => decide (lexScore simZero logZero (modeWeights "balanced") "q" r = q')) ++ t) :=
  c3_rank_descending_stable simZero logZero cosZero "q" [sampleRecord] 1 "balanced"
    (by decide) (by decide)

/-- C3 counterexample: `single` is a non-semantic mode, yet with
`top_k = 0` and a one-record pool it returns one record — more than
`top_k` — so the original claim's "truncated to at most top_k records"
fails for it. -/
theorem c3_counterexample :
    ¬ ((rank_papers simZero logZero cosZero "q" [sampleRecord] 0 "single").length ≤ 0) := by
  decide

/-! ### C4 -/

/-- C4: for every query, pool and `top_k`, mode `single` returns at most
one record, is empty exactly when the pool is empty, and returns exactly
the first pool record of maximal lexical similarity to the query (single
mode's weights are `(1, 0, 0)`, so its score is the pure similarity, and
stable sorting makes the earliest such record win ties). -/
theorem c4_single_mode (ratioFn : String → String → ℚ) (log1p : Int → ℚ)
    (cosSim : String → String → ℚ) (query : String) (papers : List Record) (k : Nat) :
    (rank_papers ratioFn log1p cosSim query papers k "single").length ≤ 1 ∧
    (rank_papers ratioFn log1p cosSim query papers k "single" = [] ↔ papers = []) ∧
    rank_papers ratioFn log1p cosSim query papers k "single"
      = (papers.find? (fun r => papers.all
          (fun s => decide (similarity ratioFn query s ≤ similarity ratioFn query r)))).toList ∧
    modeWeights "single" = ⟨1, 0, 0⟩ := by
  have hw : modeWeights "single" = ⟨1, 0, 0⟩ := by rfl
  have hkey : ∀ p : Record,
      lexScore ratioFn log1p (modeWeights "single") query p = similarity ratioFn query p := by
    intro p
    rw [hw]
    show (1 : ℚ) * similarity ratioFn query p + 0 * (citationFactor log1p p / 10)
        + 0 * recencyBoost p = similarity ratioFn query p
    ring
  have hr : rank_papers ratioFn log1p cosSim query papers k "single"
      = match sortByDesc (similarity ratioFn query) papers with
        | [] => []
        | r :: _ => [r] := by
    unfold rank_papers
    rw [if_neg (by decide : ¬ (("single" : String) = "semantic")), if_pos rfl,
      sortByDesc_congr _ _ papers hkey]
  rw [hr]
  have hhead := head?_sortByDesc (similarity ratioFn query) papers
  refine ⟨?_, ?_, ?_, hw⟩
  · cases sortByDesc (similarity ratioFn query) papers with
    | nil => simp
    | cons r t => simp
  · cases hs : sortByDesc (similarity ratioFn query) papers with
    | nil =>
      have hp : papers = [] := by
        have hlen := (perm_sortByDesc (similarity ratioFn query) papers).length_eq
        rw [hs] at hlen
        exact List.length_eq_zero.mp hlen.symm
      simp [hp]
    | cons r t =>
      have hp : papers ≠ [] := by
        intro hpe
        have hlen := (perm_sortByDesc (similarity ratioFn query) papers).length_eq
        rw [hs, hpe] at hlen
        simp at hlen
      simp [hp]
  · rw [← hhead]
    cases sortByDesc (similarity ratioFn query) papers with
    | nil => rfl
    | cons r t => rfl

/-! ### C6 -/

/-- C6: for every query and pool, semantic ranking excludes every record
whose concatenated title-and-snippet text is empty (it never appears in
the output, for any `top_k`), and ranks the remaining records by
`0.6 * cosine + 0.25 * (log(1 + citations) / 10) + 0.15 * max 0 ((year - 2000) / 25)`
with an unknown citation count or year contributing `0`.  The hypothesis
is the library fact `math.log1p 0 = 0`. -/
theorem c6_semantic_mode (cosSim : String → String → ℚ) (log1p : Int → ℚ)
    (query : String) (papers : List Record) (k : Nat) (hlog : log1p 0 = 0) :
    (∀ r : Record, stripChars ((r.title ++ " " ++ r.snippet).toList) = [] →
        r ∉ semantic_rank_papers cosSim log1p query papers k) ∧
    semantic_rank_papers cosSim log1p query papers k
      = (sortByDesc (fun r => (6/10) * cosSim query (r.title ++ " " ++ r.snippet)
            + (25/100) * specCitationTerm log1p r + (15/100) * specRecencyTerm r)
          (papers.filter (fun p => semanticKeep p))).take k ∧
    (∀ r : Record, r.citations = none → specCitationTerm log1p r = 0) ∧
    (∀ r : Record, r.year = none → specRecencyTerm r = 0) := by
  refine ⟨?_, ?_, ?_, ?_⟩
  · intro r hr hmem
    unfold semantic_rank_papers at hmem
    have h1 : r ∈ sortByDesc (semanticScore cosSim log1p query)
        (papers.filter (fun p => semanticKeep p)) :=
      (List.take_sublist k _).subset hmem
    have h2 : r ∈ papers.filter (fun p => semanticKeep p) := (mem_sortByDesc _ _ r).mp h1
    have h3 := (List.mem_filter.mp h2).2
    rw [semanticKeep, hr] at h3
    simp at h3
  · unfold semantic_rank_papers
    rw [sortByDesc_congr _ _ (papers.filter (fun p => semanticKeep p))
      (fun r => semanticScore_eq_spec cosSim log1p query r hlog)]
  · intro r h
    simp [specCitationTerm, h]
  · intro r h
    simp [specRecencyTerm, h]

/-- C6 witness: with a pool holding one blank-text record and one normal
record, the blank record is excluded and the scoring identity holds, at a
concrete `log1p` instance satisfying `log1p 0 = 0`. -/
theorem c6_witness :
    (∀ r : Record, stripChars ((r.title ++ " " ++ r.snippet).toList) = [] →
        r ∉ semantic_rank_papers cosZero logZero "q" [emptyTextRecord, sampleRecord] 5) ∧
    semantic_rank_papers cosZero logZero "q" [emptyTextRecord, sampleRecord] 5
      = (sortByDesc (fun r => (6/10) * cosZero "q" (r.title ++ " " ++ r.snippet)
            + (25/100) * specCitationTerm logZero r + (15/100) * specRecencyTerm r)
          (([emptyTextRecord, sampleRecord]).filter (fun p => semanticKeep p))).take 5 ∧
    (∀ r : Record, r.citations = none → specCitationTerm logZero r = 0) ∧
    (∀ r : Record, r.year = none → specRecencyTerm r = 0) :=
  c6_semantic_mode cosZero logZero "q" [emptyTextRecord, sampleRecord] 5 rfl

/-! ### C7 -/

/-- C7 (settled against the spec-modelled `bayesian_rank_papers`, the
implementation being absent from the provided sources): the
posterior-regression strategy assigns every record the score equal to its
feature triple (lexical similarity, citations-per-year-of-age,
exponential recency decay with a 5-year half-scale) dotted with the
posterior mean weight triple of the regression fitted on the pool's
feature matrix against synthetic observations uniformly equal to `1.0`,
and ranks by that score. -/
theorem c7_bayesian_scores (ratioFn : String → String → ℚ) (expDecay : ℚ → ℚ)
    (fit : List (ℚ × ℚ × ℚ) → List ℚ → ℚ × ℚ × ℚ) (currentYear : Int)
    (query : String) (papers : List Record) (k : Nat) :
    bayesian_rank_papers ratioFn expDecay fit currentYear query papers k
      = (sortByDesc (fun p => dot3 (bayesFeatures ratioFn expDecay currentYear query p)
            (fit (papers.map (bayesFeatures ratioFn expDecay currentYear query))
              (List.replicate papers.length (1 : ℚ))))
          papers).take k ∧
    papers.map (fun _ => (1 : ℚ)) = List.replicate papers.length 1 := by
  have hrep : papers.map (fun _ => (1 : ℚ)) = List.replicate papers.length 1 := by
    induction papers with
    | nil => rfl
    | cons a t ih => simp [List.map_cons, List.replicate_succ, ih]
  refine ⟨?_, hrep⟩
  unfold bayesian_rank_papers
  rw [hrep]

/-! ### C9 -/

/-- C9 (amended): ranking returns input records completely unchanged — in
every mode, each output record is an element of the input pool, equal in
all fields.  No `score` attribute is added: the computed scores order the
output but are not written onto the records, which refutes the original
claim's "each output record carries the score the engine computed for it"
(`c9_counterexample`). -/
theorem c9_rank_returns_input_records (ratioFn : String → String → ℚ) (log1p : Int → ℚ)
    (cosSim : String → String → ℚ) (query : String) (papers : List Record)
    (k : Nat) (mode : String) :
    ∀ r : Record, r ∈ rank_papers ratioFn log1p cosSim query papers k mode → r ∈ papers := by
  intro r hr
  unfold rank_papers at hr
  by_cases hsem : mode = "semantic"
  · rw [if_pos hsem] at hr
    unfold semantic_rank_papers at hr
    have h1 := (List.take_sublist k _).subset hr
    have h2 := (mem_sortByDesc _ _ r).mp h1
    exact (List.mem_filter.mp h2).1
  · rw [if_neg hsem] at hr
    by_cases hsingle : mode = "single"
    · rw [if_pos hsingle] at hr
      cases hs : sortByDesc (lexScore ratioFn log1p (modeWeights mode) query) papers with
      | nil =>
        rw [hs] at hr
        exact absurd hr (List.not_mem_nil r)
      | cons a t =>
        rw [hs] at hr
        have hra : r = a := by simpa using hr
        subst hra
        have hmem : r ∈ sortByDesc (lexScore ratioFn log1p (modeWeights mode) query) papers := by
          rw [hs]
          exact List.mem_cons_self r t
        exact (mem_sortByDesc _ _ r).mp hmem
    · rw [if_neg hsingle] at hr
      exact (mem_sortByDesc _ _ r).mp ((List.take_sublist k _).subset hr)

/-- C9 witness: a concrete output record of a ranking call is an element
of the input pool. -/
theorem c9_witness : sampleRecord ∈ [sampleRecord] :=
  c9_rank_returns_input_records simZero logZero cosZero "q" [sampleRecord] 5 "balanced"
    sampleRecord (by decide)

/-- C9 counterexample: the record returned by a concrete ranking call
still has no `score` attribute (`score = none`), so it does not carry the
score the engine computed for it. -/
theorem c9_counterexample :
    (rank_papers simZero logZero cosZero "q" [sampleRecord] 5 "balanced").head?
      = some sampleRecord ∧
    sampleRecord.score ≠ some (lexScore simZero logZero balancedWeights "q" sampleRecord) := by
  refine ⟨by decide, by decide⟩

/-! ### C10 -/

/-- C10: a mode name outside the recognized table cannot raise (the
embedding is total, as is the source's `dict.get` path) and produces
exactly the result of mode `balanced`, whose weights are
`(0.5, 0.3, 0.2)`. -/
theorem c10_unknown_mode_falls_back (ratioFn : String → String → ℚ) (log1p : Int → ℚ)
    (cosSim : String → String → ℚ) (query : String) (papers : List Record)
    (k : Nat) (mode : String) (h : mode ∉ MODES.map Prod.fst) :
    rank_papers ratioFn log1p cosSim query papers k mode
      = rank_papers ratioFn log1p cosSim query papers k "balanced" ∧
    modeWeights "balanced" = ⟨1/2, 3/10, 1/5⟩ := by
  simp only [ MODES, List.map_cons, List.map_nil, List.mem_cons, List.not_mem_nil, or_false,
    not_or] at h
  obtain ⟨h1, h2, h3, h4, h5, h6, h7⟩ := h
  have hlook : MODES.lookup mode = none := by
    have b1 : (mode == "balanced") = false := beq_eq_false_iff_ne.mpr h1
    have b2 : (mode == "recent") = false := beq_eq_false_iff_ne.mpr h2
    have b3 : (mode == "famous") = false := beq_eq_false_iff_ne.mpr h3
    have b4 : (mode == "influential") = false := beq_eq_false_iff_ne.mpr h4
    have b5 : (mode == "hot") = false := beq_eq_false_iff_ne.mpr h5
    have b6 : (mode == "semantic") = false := beq_eq_false_iff_ne.mpr h6
    have b7 : (mode == "single") = false := beq_eq_false_iff_ne.mpr h7
    simp [List.lookup, MODES, b1, b2, b3, b4, b5, b6, b7]
  have hmode : modeWeights mode = balancedWeights := by
    unfold modeWeights
    rw [hlook]
    rfl
  have hbal : modeWeights "balanced" = balancedWeights := by rfl
  constructor
  · unfold rank_papers
    rw [if_neg h6, if_neg h7,
      if_neg (by decide : ¬ (("balanced" : String) = "semantic")),
      if_neg (by decide : ¬ (("balanced" : String) = "single")),
      hmode, hbal]
  · rw [hbal]
    rfl

/-- C10 witness: the unrecognized mode name "newest" gives exactly the
`balanced` result on a concrete pool. -/
theorem c10_witness :
    rank_papers simZero logZero cosZero "q" [sampleRecord] 3 "newest"
      = rank_papers simZero logZero cosZero "q" [sampleRecord] 3 "balanced" ∧
    modeWeights "balanced" = ⟨1/2, 3/10, 1/5⟩ :=
  c10_unknown_mode_falls_back simZero logZero cosZero "q" [sampleRecord] 3 "newest" (by decide)

end RenderScholar
